import Mathlib

/-!
Verification of the BM25 search backend (`src/api/search.py`).

The repository is a single Python file exposing two read operations over
process-global, load-once state: a BM25 ranker (`bm25_search`) and an HTTP
handler (`handler.do_GET`) routing to either a document-detail lookup or a
search.  We embed the module-level state as a record, Python dicts as
association lists in insertion order (Python dicts preserve insertion
order), floats as real numbers, and the handler as a pure function from the
parsed query parameters to a response value.
-/

namespace Sipapa

/-- Postings of one term: `doc_id → raw term frequency`, in insertion order
(JSON object from `data/inverted_index.json`). -/
abbrev Postings := List (String × Int)

/-- The inverted index: `term → postings`. -/
abbrev Index := List (String × Postings)

/-- One row of `DOC_META`: the four fields stored per document at load time. -/
structure Meta where
  url : String
  title : String
  image_url : String
  doc_len : Int
  deriving Repr, DecidableEq

/-- The module-level state of `search.py` after the load phase:
`INVERTED_INDEX`, `DOC_META`, `DOC_LENGTHS`, `DOC_CONTENT`, `TOTAL_DOCS`,
`INIT_ERROR`. -/
structure SearchState where
  invertedIndex : Index
  docMeta : List (String × Meta)
  docLengths : List (String × Int)
  docContent : List (String × String)
  totalDocs : Nat
  initError : Option String

/-- Association-list lookup, modelling Python `dict.get` (first binding of
the key wins; Python dicts have unique keys, so on dict-shaped lists this is
exact). -/
def lookupA {β : Type} : List (String × β) → String → Option β
  | [], _ => none
  | (k, v) :: rest, key => if k = key then some v else lookupA rest key

/-- BM25 constant `k1 = 1.5` from `bm25_search`. -/
def k1 : ℝ := 1.5

/-- BM25 constant `b = 0.75` from `bm25_search`. -/
def bParam : ℝ := 0.75

/-- The collection size `N = TOTAL_DOCS or 1`, coerced to 1 when zero. -/
def collectionSize (st : SearchState) : Nat :=
  if st.totalDocs = 0 then 1 else st.totalDocs

/-- The average `avg_dl`: arithmetic mean of the values of `DOC_LENGTHS`, or
the fallback `300.0` when no lengths are known. -/
noncomputable def avgDl (st : SearchState) : ℝ :=
  if st.docLengths = [] then 300
  else ((st.docLengths.map (fun p => (p.2 : ℝ))).sum) / st.docLengths.length

/-- The length `dl = DOC_LENGTHS.get(doc_id, avg_dl)`: stored document
length, falling back to the average when unknown. -/
noncomputable def dlOf (st : SearchState) (avg : ℝ) (docId : String) : ℝ :=
  match lookupA st.docLengths docId with
  | some l => (l : ℝ)
  | none => avg

/-- The smoothed frequency `idf = math.log((N - df + 0.5) / (df + 0.5) + 1)`. -/
noncomputable def idfOf (N df : Nat) : ℝ :=
  Real.log (((N : ℝ) - (df : ℝ) + 0.5) / ((df : ℝ) + 0.5) + 1)

/-- The per-posting BM25 contribution
`idf * ((tf * (k1 + 1)) / (tf + k1 * (1 - b + b * (dl / avg_dl))))`. -/
noncomputable def contribution (N df : Nat) (tf : Int) (dl avg : ℝ) : ℝ :=
  idfOf N df * (((tf : ℝ) * (k1 + 1)) /
    ((tf : ℝ) + k1 * (1 - bParam + bParam * (dl / avg))))

/-- The update `scores[doc_id] += score` on a `defaultdict(float)`: update the binding
in place if present, else append a new binding at the end (Python dicts
append new keys in insertion order). -/
def addScore : List (String × ℝ) → String → ℝ → List (String × ℝ)
  | [], d, x => [(d, x)]
  | (k, v) :: rest, d, x =>
      if k = d then (k, v + x) :: rest else (k, v) :: addScore rest d x

/-- The inner loop of `bm25_search`: fold one term's postings into the
score accumulator. -/
noncomputable def processPostings (st : SearchState) (N df : Nat) (avg : ℝ)
    (ps : Postings) (scores : List (String × ℝ)) : List (String × ℝ) :=
  ps.foldl
    (fun sc p => addScore sc p.1 (contribution N df p.2 (dlOf st avg p.1) avg))
    scores

/-- One iteration of the term loop of `bm25_search`: look the term up,
skip it when absent or with empty postings (`if not postings: continue` and
`if df == 0: continue`), else fold its postings into the accumulator. -/
noncomputable def processTerm (st : SearchState) (N : Nat) (avg : ℝ)
    (scores : List (String × ℝ)) (term : String) : List (String × ℝ) :=
  match lookupA st.invertedIndex term with
  | none => scores
  | some ps =>
      if ps = [] then scores
      else if ps.length = 0 then scores
      else processPostings st N ps.length avg ps scores

/-- The accumulated `scores` mapping of `bm25_search` after the term loop. -/
noncomputable def computeScores (st : SearchState) (queryTerms : List String) :
    List (String × ℝ) :=
  queryTerms.foldl (processTerm st (collectionSize st) (avgDl st)) []

/-- The comparator of `sorted(scores.items(), key=lambda x: x[1],
reverse=True)`: `a` may precede `b` iff `a`'s score is at least `b`'s. -/
def scoreGE (a b : String × ℝ) : Prop := b.2 ≤ a.2

noncomputable instance : DecidableRel scoreGE := fun a b =>
  inferInstanceAs (Decidable (b.2 ≤ a.2))

instance : IsTotal (String × ℝ) scoreGE := ⟨fun a b => le_total b.2 a.2⟩

instance : IsTrans (String × ℝ) scoreGE := ⟨fun _ _ _ h h2 => le_trans h2 h⟩

/-- The ranking `ranked = sorted(scores.items(), key=lambda x: x[1],
reverse=True)`: a stable descending sort on the score component. -/
noncomputable def rankScores (scores : List (String × ℝ)) : List (String × ℝ) :=
  List.insertionSort scoreGE scores

/-- Python list slice `l[:k]`, including the negative-stop semantics:
for `k ≥ 0` it is `take k`; for `k < 0` the stop index is `len l + k`
(clamped at 0), i.e. the last `|k|` elements are dropped. -/
def pySlice {α : Type} (k : Int) (l : List α) : List α :=
  if 0 ≤ k then l.take k.toNat else l.take (l.length - (-k).toNat)

/-- One entry of the `results` list built by `bm25_search`. -/
structure SearchResult where
  doc_id : String
  title : String
  url : String
  image_url : String
  doc_len : Option Int
  score : ℝ

/-- The enrichment step of `bm25_search`: `meta = DOC_META.get(doc_id, {})`
and field defaults `"Untitled"`, `""`, `""`, `None`. -/
noncomputable def enrich (meta : List (String × Meta)) (p : String × ℝ) :
    SearchResult :=
  match lookupA meta p.1 with
  | some m => ⟨p.1, m.title, m.url, m.image_url, some m.doc_len, p.2⟩
  | none => ⟨p.1, "Untitled", "", "", none, p.2⟩

/-- The ranker `bm25_search(query_terms, top_k)`: early-out on an empty index, then
score, rank, truncate to `ranked[:top_k]`, and enrich with metadata. -/
noncomputable def bm25_search (st : SearchState) (queryTerms : List String)
    (topK : Int) : List SearchResult :=
  if st.invertedIndex = [] then []
  else
    (pySlice topK (rankScores (computeScores st queryTerms))).map
      (enrich st.docMeta)

/-- Python `str.strip()` with no argument: remove leading and trailing
whitespace. -/
def pyStrip (s : String) : String :=
  String.mk
    (((s.toList.dropWhile Char.isWhitespace).reverse.dropWhile
        Char.isWhitespace).reverse)

/-- Python `str.lower()` restricted to the ASCII range the corpus uses. -/
def pyLower (s : String) : String := String.mk (s.toList.map Char.toLower)

/-- Helper for `pySplit`: split a character list on whitespace runs,
accumulating the current word in reverse. -/
def splitWsAux : List Char → List Char → List (List Char)
  | [], acc => if acc = [] then [] else [acc.reverse]
  | c :: rest, acc =>
      if c.isWhitespace then
        if acc = [] then splitWsAux rest []
        else acc.reverse :: splitWsAux rest []
      else splitWsAux rest (c :: acc)

/-- Python `str.split()` with no argument: split on runs of whitespace,
producing no empty pieces. -/
def pySplit (s : String) : List String :=
  (splitWsAux s.toList []).map String.mk

/-- Fold a digit string into a natural number. -/
def digitsToNat (cs : List Char) : Nat :=
  cs.foldl (fun n c => 10 * n + (c.toNat - 48)) 0

/-- Python `int(s)` on a decimal string: strip surrounding whitespace,
accept an optional sign followed by one or more digits, and fail with
`ValueError` (here `none`) otherwise. -/
def pyParseInt (s : String) : Option Int :=
  match (pyStrip s).toList with
  | '-' :: rest =>
      if rest ≠ [] ∧ rest.all Char.isDigit then some (-(digitsToNat rest : Int))
      else none
  | '+' :: rest =>
      if rest ≠ [] ∧ rest.all Char.isDigit then some (digitsToNat rest : Int)
      else none
  | rest =>
      if rest ≠ [] ∧ rest.all Char.isDigit then some (digitsToNat rest : Int)
      else none

/-- The doc-id normalization of the detail branch:
`try: doc_id = str(int(doc_id_param)) except ValueError: doc_id = str(doc_id_param)`. -/
def normalizeDocId (s : String) : String :=
  match pyParseInt s with
  | some n => toString n
  | none => s

/-- The resolution `top_k = int(top_k_str)` with `except ValueError: top_k = 20`. -/
def resolvedTopK (s : String) : Int :=
  match pyParseInt s with
  | some n => n
  | none => 20

/-- The merged detail record `{doc_id, title, url, image_url, doc_len,
content}` built by the detail branch. -/
structure DetailDoc where
  doc_id : String
  title : String
  url : String
  image_url : String
  doc_len : Option Int
  content : String

/-- The caller-visible error taxonomy of the handler. -/
inductive ApiError
  | initErr (message : String)
  | documentNotFound (requestedId : String)
  | missingQuery

/-- A response from `handler.do_GET`: a detail document, a search payload
`{query, count, results}`, or an error. -/
inductive ApiResponse
  | detailResp (doc : DetailDoc)
  | searchResp (query : String) (count : Nat) (results : List SearchResult)
  | errResp (e : ApiError)

/-- The detail branch of `do_GET` (taken when `doc_id` is supplied):
normalize the id, look up metadata and content, return 404 when the
metadata is absent and the content string is empty (`if not meta and not
content`), else the merged record with `(meta or {}).get` defaults. -/
def detailOp (st : SearchState) (docIdParam : String) : ApiResponse :=
  let docId := normalizeDocId docIdParam
  let meta := lookupA st.docMeta docId
  let content := (lookupA st.docContent docId).getD ""
  if meta = none ∧ content = "" then
    ApiResponse.errResp (ApiError.documentNotFound docId)
  else
    ApiResponse.detailResp
      { doc_id := docId
        title := (meta.map Meta.title).getD "Untitled"
        url := (meta.map Meta.url).getD ""
        image_url := (meta.map Meta.image_url).getD ""
        doc_len := meta.map Meta.doc_len
        content := content }

/-- The handler `handler.do_GET` on the parsed query parameters: refuse everything with
`INIT_ERROR` when the load-error signal is set, else route to the detail
branch when `doc_id` is present, else to the search branch; an empty
trimmed `q` is the missing-query error, and `top_k` defaults to the string
`"20"` before parsing. -/
noncomputable def do_GET (st : SearchState) (docIdParam qParam topKParam : Option String) :
    ApiResponse :=
  match st.initError with
  | some e => ApiResponse.errResp (ApiError.initErr e)
  | none =>
      match docIdParam with
      | some dp => detailOp st dp
      | none =>
          let q := pyStrip (qParam.getD "")
          if q = "" then ApiResponse.errResp ApiError.missingQuery
          else
            let results := bm25_search st (pySplit (pyLower q))
              (resolvedTopK (topKParam.getD "20"))
            ApiResponse.searchResp q results.length results

/-- Score read with the `defaultdict(float)` default of `0.0`. -/
noncomputable def lookupD (sc : List (String × ℝ)) (d : String) : ℝ :=
  (lookupA sc d).getD 0

/-- The accumulated score of one document after `bm25_search`'s term loop. -/
noncomputable def scoreOf (st : SearchState) (q : List String) (d : String) : ℝ :=
  lookupD (computeScores st q) d

/-- The total contribution of one query-term occurrence to one document,
read off the implementation: zero when the term is absent, else the sum of
`contribution` over the postings entries whose key is the document. -/
noncomputable def termScoreImpl (st : SearchState) (N : Nat) (avg : ℝ)
    (t d : String) : ℝ :=
  match lookupA st.invertedIndex t with
  | none => 0
  | some ps =>
      (ps.map (fun p =>
        if p.1 = d then contribution N ps.length p.2 (dlOf st avg p.1) avg
        else 0)).sum

/-- The claim's closed form for a term occurrence's contribution to document
`d`, transcribed from the spec's words: `idf × (tf × (k1+1)) / (tf + k1 ×
(1 − b + b × dl/avg_dl))` with `k1 = 1.5`, `b = 0.75`, `idf = ln((N − df +
0.5)/(df + 0.5) + 1)`, summed over the postings entries for `d`. -/
noncomputable def termScoreSpec (st : SearchState) (t d : String) : ℝ :=
  match lookupA st.invertedIndex t with
  | none => 0
  | some ps =>
      (ps.map (fun p =>
        if p.1 = d then
          Real.log (((collectionSize st : ℝ) - (ps.length : ℝ) + 0.5) /
              ((ps.length : ℝ) + 0.5) + 1) *
            (((p.2 : ℝ) * (1.5 + 1)) /
              ((p.2 : ℝ) + 1.5 * (1 - 0.75 + 0.75 *
                (dlOf st (avgDl st) p.1 / avgDl st))))
        else 0)).sum

/-- A small concrete state realizing the spec's regression numbers:
`N = 10`, the single term `"w"` with `df = 2`, `tf("0") = 3`,
`dl("0") = 50`, and `avg_dl = (50 + 30)/2 = 40`. -/
def exState1 : SearchState :=
  { invertedIndex := [("w", [("0", 3), ("1", 1)])]
    docMeta := []
    docLengths := [("0", 50), ("1", 30)]
    docContent := []
    totalDocs := 10
    initError := none }

/-- A state whose single term scores two documents, used to exercise the
truncation step. -/
def exState2 : SearchState :=
  { invertedIndex := [("a", [("0", 1), ("1", 1)])]
    docMeta := []
    docLengths := [("0", 1), ("1", 1)]
    docContent := []
    totalDocs := 2
    initError := none }

/-- A state with a single document, whose result list reduces
definitionally. -/
def exState3 : SearchState :=
  { invertedIndex := [("a", [("0", 2)])]
    docMeta := []
    docLengths := [("0", 4)]
    docContent := []
    totalDocs := 1
    initError := none }

/-- A state with the load-error signal set. -/
def exStateErr : SearchState :=
  { invertedIndex := []
    docMeta := []
    docLengths := []
    docContent := []
    totalDocs := 0
    initError := some "boom" }

/-- A state whose content table stores the id `"7"` with empty content and
the id `"8"` with non-empty content, and whose metadata table is empty. -/
def exStateC6 : SearchState :=
  { invertedIndex := []
    docMeta := []
    docLengths := []
    docContent := [("7", ""), ("8", "hello")]
    totalDocs := 0
    initError := none }

/-- The document occurs in the postings of at least one query term. -/
def inPostingsOf (st : SearchState) (q : List String) (d : String) : Prop :=
  ∃ t ∈ q, ∃ ps, lookupA st.invertedIndex t = some ps ∧ ∃ f, (d, f) ∈ ps

/-- Non-increasing comparison on result scores: `x` may precede `y`. -/
def resGE (x y : SearchResult) : Prop := y.score ≤ x.score

theorem lookupD_addScore (sc : List (String × ℝ)) (k d : String) (x : ℝ) :
    lookupD (addScore sc k x) d = lookupD sc d + (if k = d then x else 0) := by
  induction sc with
  | nil => by_cases h : k = d <;> simp [addScore, lookupD, lookupA, h]
  | cons a rest ih =>
      obtain ⟨ak, av⟩ := a
      by_cases h1 : ak = k
      · subst h1
        by_cases h2 : ak = d
        · subst h2; simp [addScore, lookupD, lookupA]
        · simp [addScore, lookupD, lookupA, h2]
      · by_cases h2 : ak = d
        · subst h2
          have hkd : ¬ k = ak := fun h => h1 h.symm
          simp [addScore, lookupD, lookupA, h1, hkd]
        · simp only [addScore, if_neg h1, lookupD, lookupA, if_neg h2]
          exact ih

theorem lookupD_processPostings (st : SearchState) (N df : Nat) (avg : ℝ)
    (ps : Postings) (sc : List (String × ℝ)) (d : String) :
    lookupD (processPostings st N df avg ps sc) d
      = lookupD sc d +
        (ps.map (fun p =>
          if p.1 = d then contribution N df p.2 (dlOf st avg p.1) avg
          else 0)).sum := by
  induction ps generalizing sc with
  | nil => simp [processPostings, lookupD]
  | cons p rest ih =>
      simp only [processPostings, List.foldl] at ih ⊢
      rw [ih, lookupD_addScore, List.map_cons, List.sum_cons, add_assoc]

theorem lookupD_processTerm (st : SearchState) (N : Nat) (avg : ℝ)
    (sc : List (String × ℝ)) (t d : String) :
    lookupD (processTerm st N avg sc t) d
      = lookupD sc d + termScoreImpl st N avg t d := by
  unfold processTerm termScoreImpl
  cases h : lookupA st.invertedIndex t with
  | none => simp
  | some ps =>
      by_cases hps : ps = []
      · subst hps; simp
      · simp only [if_neg hps, List.length_eq_zero, if_neg hps]
        exact lookupD_processPostings st N ps.length avg ps sc d

theorem lookupD_foldTerms (st : SearchState) (N : Nat) (avg : ℝ)
    (q : List String) (sc : List (String × ℝ)) (d : String) :
    lookupD (q.foldl (processTerm st N avg) sc) d
      = lookupD sc d + (q.map (fun t => termScoreImpl st N avg t d)).sum := by
  induction q generalizing sc with
  | nil => simp
  | cons t rest ih =>
      simp only [List.foldl, List.map_cons, List.sum_cons]
      rw [ih, lookupD_processTerm, add_assoc]

theorem scoreOf_eq_sum (st : SearchState) (q : List String) (d : String) :
    scoreOf st q d
      = (q.map (fun t =>
          termScoreImpl st (collectionSize st) (avgDl st) t d)).sum := by
  unfold scoreOf computeScores
  rw [lookupD_foldTerms]
  simp [lookupD, lookupA]

theorem contribution_eq_spec (st : SearchState) (N df : Nat) (tf : Int)
    (dId : String) :
    contribution N df tf (dlOf st (avgDl st) dId) (avgDl st)
      = Real.log (((N : ℝ) - (df : ℝ) + 0.5) / ((df : ℝ) + 0.5) + 1) *
          (((tf : ℝ) * (1.5 + 1)) /
            ((tf : ℝ) + 1.5 * (1 - 0.75 + 0.75 *
              (dlOf st (avgDl st) dId / avgDl st)))) := by
  unfold contribution idfOf k1 bParam
  norm_num

theorem termScoreImpl_eq_spec (st : SearchState) (t d : String) :
    termScoreImpl st (collectionSize st) (avgDl st) t d = termScoreSpec st t d := by
  unfold termScoreImpl termScoreSpec
  cases h : lookupA st.invertedIndex t with
  | none => simp
  | some ps =>
      simp only []
      congr 1

theorem lookupA_mem {β : Type} {l : List (String × β)} {k : String} {v : β}
    (h : lookupA l k = some v) : (k, v) ∈ l := by
  induction l with
  | nil => simp [lookupA] at h
  | cons a rest ih =>
      obtain ⟨ak, av⟩ := a
      by_cases hk : ak = k
      · subst hk
        simp [lookupA] at h
        simp [h]
      · simp only [lookupA, if_neg hk] at h
        exact List.mem_cons_of_mem _ (ih h)

theorem enrich_score (meta : List (String × Meta)) (p : String × ℝ) :
    (enrich meta p).score = p.2 := by
  unfold enrich
  cases lookupA meta p.1 <;> rfl

theorem enrich_doc_id (meta : List (String × Meta)) (p : String × ℝ) :
    (enrich meta p).doc_id = p.1 := by
  unfold enrich
  cases lookupA meta p.1 <;> rfl

theorem mem_pySlice {α : Type} {k : Int} {l : List α} {x : α}
    (h : x ∈ pySlice k l) : x ∈ l := by
  unfold pySlice at h
  split at h <;> exact List.take_subset _ _ h

theorem computeScores_empty_index (st : SearchState) (q : List String)
    (h : st.invertedIndex = []) : computeScores st q = [] := by
  unfold computeScores
  generalize hsc : ([] : List (String × ℝ)) = sc
  rw [← hsc]
  clear hsc
  induction q with
  | nil => rfl
  | cons t rest ih =>
      simp only [List.foldl]
      have : processTerm st (collectionSize st) (avgDl st) [] t = [] := by
        unfold processTerm
        rw [h]
        rfl
      rw [this, ih]

theorem foldTerms_all_skipped (st : SearchState) (N : Nat) (avg : ℝ)
    (q : List String) (sc : List (String × ℝ))
    (h : ∀ t ∈ q, lookupA st.invertedIndex t = none ∨
      lookupA st.invertedIndex t = some []) :
    q.foldl (processTerm st N avg) sc = sc := by
  induction q generalizing sc with
  | nil => rfl
  | cons t rest ih =>
      simp only [List.foldl]
      have hstep : processTerm st N avg sc t = sc := by
        unfold processTerm
        rcases h t (List.mem_cons_self t rest) with hn | he
        · rw [hn]
        · rw [he]; simp
      rw [hstep]
      exact ih sc (fun u hu => h u (List.mem_cons_of_mem _ hu))

theorem one_le_collectionSize (st : SearchState) : 1 ≤ collectionSize st := by
  unfold collectionSize
  split <;> omega

theorem length_le_sum_lengths (l : List (String × Int))
    (h : ∀ p ∈ l, 1 ≤ p.2) :
    (l.length : ℝ) ≤ (l.map (fun p => (p.2 : ℝ))).sum := by
  induction l with
  | nil => simp
  | cons a rest ih =>
      simp only [List.length_cons, List.map_cons, List.sum_cons]
      have ha : (1 : ℝ) ≤ (a.2 : ℝ) := by
        exact_mod_cast h a (List.mem_cons_self a rest)
      have hr := ih (fun p hp => h p (List.mem_cons_of_mem _ hp))
      push_cast
      linarith

theorem avgDl_pos (st : SearchState) (h : ∀ p ∈ st.docLengths, 1 ≤ p.2) :
    0 < avgDl st := by
  unfold avgDl
  split
  · norm_num
  · rename_i hne
    have hlen : 0 < st.docLengths.length := List.length_pos.mpr hne
    have hlenR : (0 : ℝ) < st.docLengths.length := by exact_mod_cast hlen
    have hsum := length_le_sum_lengths st.docLengths h
    apply div_pos (lt_of_lt_of_le hlenR hsum) hlenR

theorem dlOf_pos (st : SearchState) (avg : ℝ) (d : String)
    (h : ∀ p ∈ st.docLengths, 1 ≤ p.2) (havg : 0 < avg) :
    0 < dlOf st avg d := by
  unfold dlOf
  cases hl : lookupA st.docLengths d with
  | none => simpa using havg
  | some L =>
      have hmem := lookupA_mem hl
      have h1 : 1 ≤ L := h (d, L) hmem
      simp only []
      exact_mod_cast lt_of_lt_of_le Int.zero_lt_one h1

theorem contribution_pos (N df : Nat) (f : Int) (dl avg : ℝ)
    (hdf1 : 1 ≤ df) (hdfN : df ≤ N) (hf : 1 ≤ f) (hdl : 0 < dl)
    (havg : 0 < avg) : 0 < contribution N df f dl avg := by
  have hfr : (1 : ℝ) ≤ (f : ℝ) := by exact_mod_cast hf
  have hdiv : 0 < dl / avg := div_pos hdl havg
  unfold contribution idfOf k1 bParam
  apply mul_pos
  · apply Real.log_pos
    have hNr : (df : ℝ) ≤ (N : ℝ) := by exact_mod_cast hdfN
    have hnum : (0 : ℝ) < (N : ℝ) - (df : ℝ) + 0.5 := by linarith
    have hden : (0 : ℝ) < (df : ℝ) + 0.5 := by positivity
    have := div_pos hnum hden
    linarith
  · apply div_pos
    · nlinarith
    · nlinarith

theorem addScore_inv (P : String → Prop) (sc : List (String × ℝ))
    (d : String) (x : ℝ) (hx : 0 < x) (hd : P d)
    (hsc : ∀ p ∈ sc, 0 < p.2 ∧ P p.1) :
    ∀ p ∈ addScore sc d x, 0 < p.2 ∧ P p.1 := by
  induction sc with
  | nil =>
      intro p hp
      simp only [addScore, List.mem_singleton] at hp
      subst hp
      exact ⟨hx, hd⟩
  | cons a rest ih =>
      obtain ⟨ak, av⟩ := a
      intro p hp
      by_cases hk : ak = d
      · subst hk
        simp only [addScore, eq_self_iff_true, if_true, List.mem_cons] at hp
        rcases hp with hp1 | hp2
        · subst hp1
          have h0 := hsc (ak, av) (List.mem_cons_self _ _)
          exact ⟨by have := h0.1; simp only [] at this ⊢; linarith, h0.2⟩
        · exact hsc p (List.mem_cons_of_mem _ hp2)
      · simp only [addScore, if_neg hk, List.mem_cons] at hp
        rcases hp with hp1 | hp2
        · subst hp1
          exact hsc (ak, av) (List.mem_cons_self _ _)
        · exact ih (fun r hr => hsc r (List.mem_cons_of_mem _ hr)) p hp2

theorem processPostings_inv (st : SearchState) (P : String → Prop)
    (N df : Nat) (avg : ℝ) (ps : Postings) (sc : List (String × ℝ))
    (hps : ∀ p ∈ ps, 1 ≤ p.2 ∧ P p.1)
    (hpos : ∀ p ∈ ps, 0 < contribution N df p.2 (dlOf st avg p.1) avg)
    (hsc : ∀ p ∈ sc, 0 < p.2 ∧ P p.1) :
    ∀ p ∈ processPostings st N df avg ps sc, 0 < p.2 ∧ P p.1 := by
  induction ps generalizing sc with
  | nil => simpa [processPostings] using hsc
  | cons a rest ih =>
      simp only [processPostings, List.foldl] at ih ⊢
      apply ih
      · exact fun p hp => hps p (List.mem_cons_of_mem _ hp)
      · exact fun p hp => hpos p (List.mem_cons_of_mem _ hp)
      · exact addScore_inv P sc a.1 _
          (hpos a (List.mem_cons_self _ _))
          (hps a (List.mem_cons_self _ _)).2 hsc

theorem processTerm_inv (st : SearchState) (avg : ℝ) (P : String → Prop)
    (sc : List (String × ℝ)) (t : String)
    (hf : ∀ tp ∈ st.invertedIndex, ∀ p ∈ tp.2, 1 ≤ p.2)
    (hdf : ∀ tp ∈ st.invertedIndex, tp.2.length ≤ collectionSize st)
    (hl : ∀ p ∈ st.docLengths, 1 ≤ p.2)
    (havg : 0 < avg)
    (hsc : ∀ p ∈ sc, 0 < p.2 ∧ P p.1)
    (hP : ∀ ps, lookupA st.invertedIndex t = some ps → ∀ p ∈ ps, P p.1) :
    ∀ p ∈ processTerm st (collectionSize st) avg sc t, 0 < p.2 ∧ P p.1 := by
  unfold processTerm
  cases hlk : lookupA st.invertedIndex t with
  | none => simpa using hsc
  | some ps =>
      by_cases hps : ps = []
      · subst hps; simpa using hsc
      · have hlen : ps.length ≠ 0 := fun h => hps (List.length_eq_zero.mp h)
        simp only [if_neg hps, if_neg hlen]
        have hmem := lookupA_mem hlk
        apply processPostings_inv
        · exact fun p hp => ⟨hf (t, ps) hmem p hp, hP ps hlk p hp⟩
        · intro p hp
          apply contribution_pos
          · exact Nat.one_le_iff_ne_zero.mpr hlen
          · exact hdf (t, ps) hmem
          · exact hf (t, ps) hmem p hp
          · exact dlOf_pos st avg p.1 hl havg
          · exact havg
        · exact hsc

theorem foldTerms_inv (st : SearchState) (avg : ℝ) (q terms : List String)
    (sc : List (String × ℝ))
    (hsub : ∀ t ∈ terms, t ∈ q)
    (hf : ∀ tp ∈ st.invertedIndex, ∀ p ∈ tp.2, 1 ≤ p.2)
    (hdf : ∀ tp ∈ st.invertedIndex, tp.2.length ≤ collectionSize st)
    (hl : ∀ p ∈ st.docLengths, 1 ≤ p.2)
    (havg : 0 < avg)
    (hsc : ∀ p ∈ sc, 0 < p.2 ∧ inPostingsOf st q p.1) :
    ∀ p ∈ terms.foldl (processTerm st (collectionSize st) avg) sc,
      0 < p.2 ∧ inPostingsOf st q p.1 := by
  induction terms generalizing sc with
  | nil => simpa using hsc
  | cons t rest ih =>
      simp only [List.foldl]
      apply ih _ (fun u hu => hsub u (List.mem_cons_of_mem _ hu))
      apply processTerm_inv st avg _ sc t hf hdf hl havg hsc
      intro ps hlk p hp
      exact ⟨t, hsub t (List.mem_cons_self _ _), ps, hlk, p.2, by simpa using hp⟩

theorem mem_computeScores_pos (st : SearchState) (q : List String)
    (hf : ∀ tp ∈ st.invertedIndex, ∀ p ∈ tp.2, 1 ≤ p.2)
    (hdf : ∀ tp ∈ st.invertedIndex, tp.2.length ≤ collectionSize st)
    (hl : ∀ p ∈ st.docLengths, 1 ≤ p.2) :
    ∀ p ∈ computeScores st q, 0 < p.2 ∧ inPostingsOf st q p.1 := by
  unfold computeScores
  exact foldTerms_inv st (avgDl st) q q [] (fun _ h => h) hf hdf hl
    (avgDl_pos st hl) (by simp)

/-- C4: query terms are processed independently, with no deduplication: a
term occurring `m` times in the query contributes `m` times the score a
single occurrence gives each document, all other terms held equal. -/
theorem claim_C4_duplicates_linear (st : SearchState) (q1 q2 : List String)
    (t d : String) (m : Nat) :
    scoreOf st (q1 ++ List.replicate m t ++ q2) d
      = scoreOf st (q1 ++ q2) d + m * scoreOf st [t] d := by
  simp only [scoreOf_eq_sum, List.map_append, List.sum_append,
    List.map_replicate, List.sum_replicate, List.map_cons, List.map_nil,
    List.sum_cons, List.sum_nil, add_zero, nsmul_eq_mul]
  ring

/-- C5: the detail identifier is normalized by integer parse-and-restringify
with fallback to the raw string, so two valid integer forms of the same
number resolve to the same canonical key — and hence the same response —
while non-numeric identifiers are looked up verbatim. -/
theorem claim_C5_docid_normalization (st : SearchState)
    (s1 s2 s : String) (n : Int) (qp tp : Option String)
    (h1 : pyParseInt s1 = some n) (h2 : pyParseInt s2 = some n)
    (hs : pyParseInt s = none) :
    normalizeDocId s1 = normalizeDocId s2 ∧
    do_GET st (some s1) qp tp = do_GET st (some s2) qp tp ∧
    normalizeDocId s = s := by
  have heq : normalizeDocId s1 = normalizeDocId s2 := by
    unfold normalizeDocId
    rw [h1, h2]
  refine ⟨heq, ?_, ?_⟩
  · unfold do_GET
    cases hinit : st.initError with
    | some e => rfl
    | none =>
        simp only []
        unfold detailOp
        rw [heq]
  · unfold normalizeDocId
    rw [hs]

/-- Instantiation of C5 at the integer forms `"005"` and `"5"` and the
non-numeric identifier `"abc"`. -/
theorem claim_C5_witness :
    normalizeDocId "005" = normalizeDocId "5" ∧
    do_GET exStateC6 (some "005") none none
      = do_GET exStateC6 (some "5") none none ∧
    normalizeDocId "abc" = "abc" :=
  claim_C5_docid_normalization exStateC6 "005" "5" "abc" 5 none none
    (by decide) (by decide) (by decide)

/-- C7: with no doc_id parameter and the load-error unset, a query that is
empty after trimming fails with the missing-query condition and no ranking
result is produced; a non-empty trimmed query is lowercased, whitespace-split
and handed to `bm25_search`, whose output is returned with its count. -/
theorem claim_C7_missing_query (st : SearchState) (qp tp : Option String)
    (h0 : st.initError = none) :
    (pyStrip (qp.getD "") = "" →
      do_GET st none qp tp = ApiResponse.errResp ApiError.missingQuery) ∧
    (pyStrip (qp.getD "") ≠ "" →
      do_GET st none qp tp =
        ApiResponse.searchResp (pyStrip (qp.getD ""))
          (bm25_search st (pySplit (pyLower (pyStrip (qp.getD ""))))
            (resolvedTopK (tp.getD "20"))).length
          (bm25_search st (pySplit (pyLower (pyStrip (qp.getD ""))))
            (resolvedTopK (tp.getD "20")))) := by
  unfold do_GET
  rw [h0]
  constructor
  · intro h
    simp [h]
  · intro h
    simp [h]

/-- Instantiation of C7 at a whitespace-only query. -/
theorem claim_C7_witness :
    do_GET exStateC6 none (some "   ") none
      = ApiResponse.errResp ApiError.missingQuery :=
  (claim_C7_missing_query exStateC6 (some "   ") none rfl).1 (by decide)

/-- C8: when the load-error signal `INIT_ERROR` is set, every request —
detail and search alike — is refused with that same error uniformly, before
any catalog lookup or ranking. -/
theorem claim_C8_init_error_uniform (st : SearchState)
    (dp qp tp : Option String) (msg : String)
    (h : st.initError = some msg) :
    do_GET st dp qp tp = ApiResponse.errResp (ApiError.initErr msg) := by
  unfold do_GET
  rw [h]

/-- Instantiation of C8 at a state whose load failed. -/
theorem claim_C8_witness :
    do_GET exStateErr (some "7") none none
      = ApiResponse.errResp (ApiError.initErr "boom") :=
  claim_C8_init_error_uniform exStateErr (some "7") none none "boom" rfl

/-- C9: the smoothed inverse document frequency
`ln((N − df + 0.5)/(df + 0.5) + 1)` is non-negative whenever `df ≤ N` and
`N ≥ 1` (and, being a real number in this model, it is finite). -/
theorem claim_C9_idf_nonneg (N df : Nat) (hN : 1 ≤ N) (hdf : df ≤ N) :
    0 ≤ idfOf N df := by
  unfold idfOf
  apply Real.log_nonneg
  have hdfN : (df : ℝ) ≤ (N : ℝ) := by exact_mod_cast hdf
  have hnum : (0 : ℝ) ≤ (N : ℝ) - (df : ℝ) + 0.5 := by linarith
  have hden : (0 : ℝ) < (df : ℝ) + 0.5 := by positivity
  have := div_nonneg hnum hden.le
  linarith

/-- Instantiation of C9 at the spec's regression numbers `N = 10`, `df = 2`. -/
theorem claim_C9_witness : 0 ≤ idfOf 10 2 :=
  claim_C9_idf_nonneg 10 2 (by decide) (by decide)

/-- C1: for a non-empty inverted index the accumulated score `bm25_search`
assigns to a document is the sum, over each occurrence of each query term
with postings containing the document, of `idf × (tf × (k1+1)) / (tf + k1 ×
(1 − b + b × dl/avg_dl))` with `k1 = 1.5`, `b = 0.75`, `idf = ln((N − df +
0.5)/(df + 0.5) + 1)`, `dl` the stored length (average when unknown) and
`avg_dl` the mean known length (300 when none); in particular for `N = 10`,
`df = 2`, `tf = 3`, `dl = 50`, `avg_dl = 40` the single-term score is
`ln(4.4) × (3 × 2.5)/(3 + 1.5 × (0.25 + 0.75 × 50/40))`. -/
theorem claim_C1_bm25_score (st : SearchState) (q : List String) (d : String)
    (hne : st.invertedIndex ≠ []) :
    scoreOf st q d = (q.map (fun t => termScoreSpec st t d)).sum ∧
    scoreOf exState1 ["w"] "0"
      = Real.log 4.4 *
          ((3 * 2.5) / (3 + 1.5 * (0.25 + 0.75 * (50 / 40)))) := by
  constructor
  · rw [scoreOf_eq_sum]
    simp only [termScoreImpl_eq_spec]
  · have havg : avgDl exState1 = 40 := by
      simp [avgDl, exState1]
      norm_num
    have hN : collectionSize exState1 = 10 := by simp [collectionSize, exState1]
    have hlook : lookupA exState1.invertedIndex "w" = some [("0", 3), ("1", 1)] := by
      simp [exState1, lookupA]
    have hdl0 : dlOf exState1 (avgDl exState1) "0" = 50 := by
      simp [dlOf, exState1, lookupA]
    have hdl0n : dlOf exState1 40 "0" = 50 := by
      simp [dlOf, exState1, lookupA]
    have hne1 : ("1" : String) ≠ "0" := by decide
    rw [scoreOf_eq_sum]
    simp only [List.map_cons, List.map_nil, List.sum_cons, List.sum_nil,
      add_zero]
    rw [termScoreImpl_eq_spec]
    unfold termScoreSpec
    rw [hlook]
    simp only [List.map_cons, List.map_nil, List.sum_cons, List.sum_nil,
      add_zero, List.length_cons, List.length_nil, hne1, hN, hdl0, havg]
    simp [hne1, hdl0, havg, hN]
    have harg : ((10 : ℝ) - 2 + 0.5) / (2 + 0.5) + 1 = 4.4 := by norm_num
    rw [harg, hdl0n]
    norm_num

/-- Instantiation of C1's closed form at the concrete example state. -/
theorem claim_C1_witness :
    scoreOf exState1 ["w"] "0"
      = (["w"].map (fun t => termScoreSpec exState1 t "0")).sum :=
  (claim_C1_bm25_score exState1 ["w"] "0" (by decide)).1

theorem bm25_eq_empty_of_scores_nil (st : SearchState) (q : List String)
    (k : Int) (h : computeScores st q = []) : bm25_search st q k = [] := by
  unfold bm25_search
  split
  · rfl
  · rw [h]
    unfold rankScores pySlice
    simp [List.insertionSort]

/-- C2 (amended): `bm25_search` returns an empty list when the index is
empty, the query is empty, no query term has (non-empty) postings, or
`top_k = 0`; unknown terms are silently skipped.  For negative `top_k`
Python slice semantics apply, so the result is empty exactly when `|top_k|`
reaches the number of scoring documents. -/
theorem claim_C2_empty_results (st : SearchState) (q : List String) (k : Int) :
    (st.invertedIndex = [] → bm25_search st q k = []) ∧
    (bm25_search st [] k = []) ∧
    ((∀ u ∈ q, lookupA st.invertedIndex u = none ∨
        lookupA st.invertedIndex u = some []) → bm25_search st q k = []) ∧
    (k = 0 → bm25_search st q k = []) ∧
    (k < 0 → (computeScores st q).length ≤ (-k).toNat →
      bm25_search st q k = []) ∧
    (∀ (N : Nat) (avg : ℝ) (sc : List (String × ℝ)) (t : String),
      lookupA st.invertedIndex t = none → processTerm st N avg sc t = sc) := by
  refine ⟨?_, ?_, ?_, ?_, ?_, ?_⟩
  · intro h
    unfold bm25_search
    rw [if_pos h]
  · exact bm25_eq_empty_of_scores_nil st [] k rfl
  · intro h
    exact bm25_eq_empty_of_scores_nil st q k (foldTerms_all_skipped st _ _ q [] h)
  · intro h
    subst h
    unfold bm25_search
    split
    · rfl
    · unfold pySlice
      simp
  · intro hk hlen
    unfold bm25_search
    split
    · rfl
    · unfold pySlice
      rw [if_neg (by omega)]
      have hr : (rankScores (computeScores st q)).length = (computeScores st q).length := by
        unfold rankScores
        exact List.length_insertionSort _ _
      rw [hr, Nat.sub_eq_zero_of_le hlen]
      simp
  · intro N avg sc t h
    unfold processTerm
    rw [h]

/-- Refutation of C2 as frozen: with two scoring documents and
`top_k = -1 ≤ 0` the result list is not empty — the Python slice
`ranked[:-1]` drops only the last entry. -/
theorem claim_C2_counterexample :
    (-1 : Int) ≤ 0 ∧ bm25_search exState2 ["a"] (-1) ≠ [] := by
  refine ⟨by decide, ?_⟩
  have hne01 : ("0" : String) ≠ "1" := by decide
  have hsc : (computeScores exState2 ["a"]).length = 2 := by
    simp [computeScores, processTerm, processPostings, exState2, lookupA,
      addScore, List.foldl, hne01]
  have hr : (rankScores (computeScores exState2 ["a"])).length = 2 := by
    unfold rankScores
    rw [List.length_insertionSort]
    exact hsc
  have hlen : (bm25_search exState2 ["a"] (-1)).length = 1 := by
    unfold bm25_search
    rw [if_neg (by decide)]
    unfold pySlice
    rw [if_neg (by decide)]
    rw [List.length_map, List.length_take, hr]
    decide
  intro hcontra
  rw [hcontra] at hlen
  simp at hlen

/-- Instantiation of the amended C2 at `top_k = 0`. -/
theorem claim_C2_witness : bm25_search exState2 ["a"] 0 = [] :=
  (claim_C2_empty_results exState2 ["a"] 0).2.2.2.1 rfl

theorem pySlice_sublist {α : Type} (k : Int) (l : List α) :
    (pySlice k l).Sublist l := by
  unfold pySlice
  split <;> exact List.take_sublist _ _

theorem sorted_rankScores (sc : List (String × ℝ)) :
    List.Sorted scoreGE (rankScores sc) :=
  List.sorted_insertionSort scoreGE sc

/-- C3: for positive `top_k` the result list is sorted by non-increasing
score, has exactly `min(top_k, number of scoring documents)` entries, and
every retained entry scores at least every document dropped by the
truncation; and the facade resolves a non-numeric `top_k` string to the
default 20. -/
theorem claim_C3_ranking (st : SearchState) (q : List String) (k : Int)
    (hk : 0 < k) :
    List.Sorted resGE (bm25_search st q k) ∧
    (bm25_search st q k).length = min k.toNat (computeScores st q).length ∧
    (∀ x ∈ bm25_search st q k,
      ∀ y ∈ (rankScores (computeScores st q)).drop k.toNat, y.2 ≤ x.score) ∧
    (∀ s, pyParseInt s = none → resolvedTopK s = 20) := by
  refine ⟨?_, ?_, ?_, ?_⟩
  · unfold bm25_search
    split
    · exact List.sorted_nil
    · refine List.Pairwise.map _ ?_
        ((sorted_rankScores (computeScores st q)).sublist (pySlice_sublist k _))
      intro a c hac
      unfold scoreGE at hac
      unfold resGE
      rw [enrich_score, enrich_score]
      exact hac
  · unfold bm25_search
    split
    · rename_i hidx
      rw [computeScores_empty_index st q hidx]
      simp
    · rw [List.length_map]
      unfold pySlice
      rw [if_pos hk.le, List.length_take]
      unfold rankScores
      rw [List.length_insertionSort]
  · unfold bm25_search
    split
    · intro x hx
      simp at hx
    · intro x hx y hy
      rw [List.mem_map] at hx
      obtain ⟨p, hp, rfl⟩ := hx
      unfold pySlice at hp
      rw [if_pos hk.le] at hp
      have hsorted := sorted_rankScores (computeScores st q)
      have hsplit := List.take_append_drop k.toNat (rankScores (computeScores st q))
      rw [← hsplit] at hsorted
      have hcross := (List.pairwise_append.mp hsorted).2.2
      have := hcross p hp y hy
      rw [enrich_score]
      exact this
  · intro s hs
    unfold resolvedTopK
    rw [hs]

/-- Instantiation of C3's truncation count at a concrete state with two
scoring documents and `top_k = 5`. -/
theorem claim_C3_witness :
    (bm25_search exState2 ["a"] 5).length
      = min (5 : Int).toNat (computeScores exState2 ["a"]).length :=
  (claim_C3_ranking exState2 ["a"] 5 (by decide)).2.1

/-- C6 (amended): with the load-error unset, a detail request fails with
DOCUMENT_NOT_FOUND exactly when the normalized identifier has no metadata
entry and its content lookup — which defaults missing entries to the empty
string — yields the empty string (so an identifier stored with empty
content and absent from metadata is also NOT_FOUND); otherwise the merged
record with defaults `"Untitled"`, `""`, `""`, `null`, `""` is returned. -/
theorem claim_C6_detail_lookup (st : SearchState) (dparam : String)
    (qp tp : Option String) (h0 : st.initError = none) :
    (do_GET st (some dparam) qp tp
        = ApiResponse.errResp (ApiError.documentNotFound (normalizeDocId dparam))
      ↔ lookupA st.docMeta (normalizeDocId dparam) = none ∧
        (lookupA st.docContent (normalizeDocId dparam)).getD "" = "") ∧
    (¬ (lookupA st.docMeta (normalizeDocId dparam) = none ∧
        (lookupA st.docContent (normalizeDocId dparam)).getD "" = "") →
      do_GET st (some dparam) qp tp
        = ApiResponse.detailResp
            { doc_id := normalizeDocId dparam
              title := ((lookupA st.docMeta (normalizeDocId dparam)).map
                Meta.title).getD "Untitled"
              url := ((lookupA st.docMeta (normalizeDocId dparam)).map
                Meta.url).getD ""
              image_url := ((lookupA st.docMeta (normalizeDocId dparam)).map
                Meta.image_url).getD ""
              doc_len := (lookupA st.docMeta (normalizeDocId dparam)).map
                Meta.doc_len
              content := (lookupA st.docContent (normalizeDocId dparam)).getD "" }) := by
  unfold do_GET
  rw [h0]
  simp only []
  unfold detailOp
  by_cases hc : lookupA st.docMeta (normalizeDocId dparam) = none ∧
      (lookupA st.docContent (normalizeDocId dparam)).getD "" = ""
  · rw [if_pos hc]
    exact ⟨by simp [hc], fun h => absurd hc h⟩
  · rw [if_neg hc]
    exact ⟨by simp [hc], fun _ => rfl⟩

/-- Refutation of C6 as frozen: the identifier `"7"` is known to the content
table (with empty content), yet the detail request fails with
DOCUMENT_NOT_FOUND. -/
theorem claim_C6_counterexample :
    lookupA exStateC6.docContent "7" = some "" ∧
    do_GET exStateC6 (some "7") none none
      = ApiResponse.errResp (ApiError.documentNotFound "7") := by
  constructor
  · decide
  · rfl

/-- Instantiation of the amended C6 at an id with content but no metadata. -/
theorem claim_C6_witness :
    do_GET exStateC6 (some "8") none none
      = ApiResponse.detailResp
          { doc_id := normalizeDocId "8"
            title := ((lookupA exStateC6.docMeta (normalizeDocId "8")).map
              Meta.title).getD "Untitled"
            url := ((lookupA exStateC6.docMeta (normalizeDocId "8")).map
              Meta.url).getD ""
            image_url := ((lookupA exStateC6.docMeta (normalizeDocId "8")).map
              Meta.image_url).getD ""
            doc_len := (lookupA exStateC6.docMeta (normalizeDocId "8")).map
              Meta.doc_len
            content := (lookupA exStateC6.docContent (normalizeDocId "8")).getD "" } :=
  (claim_C6_detail_lookup exStateC6 "8" none none rfl).2 (by decide)

/-- C10: under the data-model invariants (stored term frequencies ≥ 1,
document frequency at most the collection size, stored lengths ≥ 1), every
returned entry has a strictly positive score and its doc_id occurs in the
postings of at least one query term, so documents matching no query term
never appear. -/
theorem claim_C10_positive_scores (st : SearchState) (q : List String)
    (k : Int) (hk : 0 < k)
    (hf : ∀ tp ∈ st.invertedIndex, ∀ p ∈ tp.2, 1 ≤ p.2)
    (hdf : ∀ tp ∈ st.invertedIndex, tp.2.length ≤ collectionSize st)
    (hl : ∀ p ∈ st.docLengths, 1 ≤ p.2) :
    ∀ r ∈ bm25_search st q k, 0 < r.score ∧ inPostingsOf st q r.doc_id := by
  intro r hr
  unfold bm25_search at hr
  split at hr
  · simp at hr
  · rw [List.mem_map] at hr
    obtain ⟨p, hp, rfl⟩ := hr
    have hmem : p ∈ rankScores (computeScores st q) :=
      (pySlice_sublist k _).subset hp
    have hmem2 : p ∈ computeScores st q := by
      unfold rankScores at hmem
      rw [List.mem_insertionSort] at hmem
      exact hmem
    have hres := mem_computeScores_pos st q hf hdf hl p hmem2
    rw [enrich_score, enrich_doc_id]
    exact hres

/-- Instantiation of C10 at a single-document state, applied to the one
returned entry. -/
theorem claim_C10_witness :
    0 < (enrich exState3.docMeta
      ("0", contribution 1 1 2 (dlOf exState3 (avgDl exState3) "0")
        (avgDl exState3))).score ∧
    inPostingsOf exState3 ["a"]
      (enrich exState3.docMeta
        ("0", contribution 1 1 2 (dlOf exState3 (avgDl exState3) "0")
          (avgDl exState3))).doc_id :=
  claim_C10_positive_scores exState3 ["a"] 1 (by decide) (by decide)
    (by decide) (by decide)
    (enrich exState3.docMeta
      ("0", contribution 1 1 2 (dlOf exState3 (avgDl exState3) "0")
        (avgDl exState3)))
    (List.mem_singleton.mpr rfl)

end Sipapa
